import Mathlib

/-!
# Verification of the ddos-tracker event/scoring core

Shallow embedding of the core of `app.py` (ring buffer of recent attacks,
threat-score engine, per-country scores, threat-intel pool cache), with
theorems settling the specification claims about it.

Modelling conventions:
* Python floats are modelled as `Rat` (all claim-relevant values are exact).
* Python `datetime.fromisoformat(...).timestamp()` is modelled by storing the
  parse outcome in the record: `timestamp : Option Int` — `none` stands for a
  malformed timestamp string, on which the Python call raises `ValueError`.
* Code that can raise is modelled in `Except String`; the `try/except`
  wrappers of the source become a `match` on the `Except` value.
* `collections.deque(maxlen := n)` is modelled by `dequeAppend`, which keeps
  the last `n` elements of the appended list.
-/

namespace DDoSTracker

/-! ## Configuration constants (app.py, CONFIGURATION SECTION) -/

def MAX_ATTACKS : Nat := 100
def MAX_THREAT_HISTORY : Nat := 60
def ANALYSIS_WINDOW_SECONDS : Int := 300
def THREAT_LEVEL_CRITICAL : Int := 80
def THREAT_LEVEL_HIGH : Int := 60
def THREAT_LEVEL_MEDIUM : Int := 35
def ESCALATION_THRESHOLD : Int := 10
def DE_ESCALATION_THRESHOLD : Int := 10
def CACHE_DURATION : Int := 90

/-! ## Data model -/

/-- A geolocation record (`origin` / `destination` dict of an attack).
`country : Option String` models a dict that may lack the `country` key:
`d['country']` raises `KeyError` when it is `none`. -/
structure Location where
  name : String
  country : Option String
  lat : Rat
  lon : Rat
  deriving Repr, DecidableEq

/-- An attack record as built by `create_us_attack` / `create_real_attack`.
Optional fields model dict keys that may be absent (read with `.get` in the
source) or values whose parsing may fail. -/
structure Attack where
  id : Nat
  /-- Epoch seconds of the parsed ISO timestamp; `none` models a malformed
  timestamp string (`datetime.fromisoformat` raises `ValueError`). -/
  timestamp : Option Int
  origin : Option Location
  destination : Option Location
  attack_type : Option String
  severity : Option String
  packets : Nat
  source_ip : String
  destination_ip : String
  ip_version : String
  real_data : Bool
  deriving Repr, DecidableEq

/-! ## Ring buffer: `deque(maxlen = n)` -/

/-- `deque.append` on a deque with `maxlen = n`: the oldest element is evicted
silently when the buffer is full (keeps the last `n` elements). -/
def dequeAppend (n : Nat) (buf : List α) (x : α) : List α :=
  let b := buf ++ [x]
  b.drop (b.length - n)

/-- The buffer obtained by appending `xs` in order to an initially empty
`deque(maxlen = n)`. -/
def dequeOfAppends (n : Nat) (xs : List α) : List α :=
  xs.foldl (dequeAppend n) []

theorem dequeAppend_eq_rtake (n : Nat) (buf : List α) (x : α) :
    dequeAppend n buf x = (buf ++ [x]).rtake n := rfl

theorem rtake_append_rtake (n : Nat) (l m : List α) :
    (l.rtake n ++ m).rtake n = (l ++ m).rtake n := by
  rw [List.rtake_eq_reverse_take_reverse, List.rtake_eq_reverse_take_reverse,
    List.rtake_eq_reverse_take_reverse]
  congr 1
  rw [List.reverse_append, List.reverse_reverse, List.reverse_append]
  rw [List.take_append_eq_append_take, List.take_append_eq_append_take, List.take_take]
  congr 1
  congr 1
  omega

theorem foldl_dequeAppend_rtake (n : Nat) (xs l : List α) :
    xs.foldl (dequeAppend n) (l.rtake n) = (l ++ xs).rtake n := by
  induction xs generalizing l with
  | nil => simp
  | cons x xs ih =>
    have h1 : dequeAppend n (l.rtake n) x = ((l ++ [x]).rtake n) := by
      rw [dequeAppend_eq_rtake, rtake_append_rtake]
    rw [List.foldl_cons, h1, ih (l ++ [x])]
    simp

/-- The reachable buffer states are exactly the last-`n` suffixes of the
append history. -/
theorem dequeOfAppends_eq_rtake (n : Nat) (xs : List α) :
    dequeOfAppends n xs = xs.rtake n := by
  have h : ([] : List α).rtake n = [] := by simp
  rw [dequeOfAppends, ← h, foldl_dequeAppend_rtake]
  simp

theorem length_rtake_le (n : Nat) (l : List α) : (l.rtake n).length ≤ n := by
  rw [List.rtake_eq_reverse_take_reverse]
  simp only [List.length_reverse, List.length_take]
  omega

/-- C1. For every sequence of appended attack records, the recent-attacks
ring buffer (`recent_attacks = deque(maxlen = MAX_ATTACKS)`) never exceeds
its capacity, and reading it back yields exactly the most recent
`MAX_ATTACKS` appended records in insertion order (`List.rtake` is the
last-`n`-in-order suffix). -/
theorem ring_buffer_bounded_and_ordered (xs : List Attack) :
    (dequeOfAppends MAX_ATTACKS xs).length ≤ MAX_ATTACKS ∧
    dequeOfAppends MAX_ATTACKS xs = xs.rtake MAX_ATTACKS := by
  refine ⟨?_, dequeOfAppends_eq_rtake _ xs⟩
  rw [dequeOfAppends_eq_rtake]
  exact length_rtake_le _ _

/-! ## Threat-score engine (`calculate_threat_score` and helpers, app.py) -/

/-- The `factors` component of a threat-score result. -/
structure ThreatScoreFactors where
  frequency : Rat
  severity : Rat
  diversity : Rat
  concentration : Rat
  deriving Repr, DecidableEq

/-- A threat-score result record (`ThreatScoreResult` TypedDict). The
`timestamp` is the ISO string of the computation instant, passed in as a
parameter of the embedding. -/
structure ThreatScoreResult where
  score : Int
  level : String
  trend : String
  factors : ThreatScoreFactors
  timestamp : String
  deriving Repr, DecidableEq

/-- The zero-score record the source returns on an empty buffer or on an
internal exception. -/
def zeroScore (nowIso : String) : ThreatScoreResult :=
  { score := 0, level := "Low", trend := "stable"
    factors := { frequency := 0, severity := 0, diversity := 0, concentration := 0 }
    timestamp := nowIso }

/-- `_classify_threat_level`: threshold classification of a total score. -/
def classifyThreatLevel (score : Int) : String :=
  if score ≥ THREAT_LEVEL_CRITICAL then "Critical"
  else if score ≥ THREAT_LEVEL_HIGH then "High"
  else if score ≥ THREAT_LEVEL_MEDIUM then "Medium"
  else "Low"

/-- `_calculate_trend`: compare the current score against the mean of the
last 5 historical scores (`list(history)[-5:]`). -/
def calculateTrend (history : List ThreatScoreResult) (current_score : Int) : String :=
  if history.length < 5 then "stable"
  else
    let recent_scores := (history.drop (history.length - 5)).map (fun r => r.score)
    let avg_recent : Rat := ((recent_scores.map (fun s => (s : Rat))).sum) / (recent_scores.length : Rat)
    if (current_score : Rat) > avg_recent + (ESCALATION_THRESHOLD : Rat) then "escalating"
    else if (current_score : Rat) < avg_recent - (DE_ESCALATION_THRESHOLD : Rat) then "de-escalating"
    else "stable"

/-- Severity weight in `calculate_threat_score`:
`severity_weights.get(a.get('severity', 'Low'), 1)` with
`{'Critical': 10, 'High': 6, 'Medium': 3, 'Low': 1}` — a missing key
defaults to `'Low'` (weight 1) and an unknown string to the fallback 1. -/
def sevWeight (s : Option String) : Nat :=
  match s with
  | none => 1
  | some "Critical" => 10
  | some "High" => 6
  | some "Medium" => 3
  | some "Low" => 1
  | some _ => 1

/-- The window filter comprehension of `calculate_threat_score`: keeps the
attacks whose parsed timestamp is strictly more recent than `recentTime`.
A malformed timestamp makes the comprehension raise (`ValueError`). -/
def filterByWindow (recentTime : Int) : List Attack → Except String (List Attack)
  | [] => .ok []
  | a :: rest =>
    match a.timestamp with
    | none => .error "ValueError: invalid isoformat string"
    | some t => do
      let tail ← filterByWindow recentTime rest
      pure (if t > recentTime then a :: tail else tail)

/-- `[a['destination']['country'] for a in recent_attack_list if 'destination' in a]`:
collects destination countries; an attack whose destination dict lacks the
`country` key makes the comprehension raise (`KeyError`). -/
def targetCountriesE : List Attack → Except String (List String)
  | [] => .ok []
  | a :: rest =>
    match a.destination with
    | none => targetCountriesE rest
    | some d =>
      match d.country with
      | none => .error "KeyError: country"
      | some c => do
        let tail ← targetCountriesE rest
        pure (c :: tail)

/-- `Counter(l).most_common(1)[0][1]`: the largest multiplicity in `l`. -/
def maxCount (l : List String) : Nat :=
  (l.map (fun c => l.count c)).foldl Nat.max 0

/-- Python `round(x, 1)` (round half to even at one decimal place), as the
embedding of `_round_scores` with `_SCORE_PRECISION = 1`. -/
def pyRound1 (q : Rat) : Rat :=
  let s : Rat := q * 10
  let f : Int := s.floor
  let r : Rat := s - (f : Rat)
  let n : Int :=
    if r > 1/2 then f + 1
    else if r < 1/2 then f
    else if f % 2 = 0 then f else f + 1
  (n : Rat) / 10

/-- The body of the `try:` block of `calculate_threat_score` (app.py).
Returns the score record together with the updated score history;
`.error` models an uncaught exception inside the block. -/
def calcThreatScoreCore (now : Int) (nowIso : String) (buf : List Attack)
    (hist : List ThreatScoreResult) :
    Except String (ThreatScoreResult × List ThreatScoreResult) :=
  if buf = [] then .ok (zeroScore nowIso, hist)
  else do
    let recentTime := now - ANALYSIS_WINDOW_SECONDS
    let filtered ← filterByWindow recentTime buf
    let ral := if filtered = [] then buf.rtake 10 else filtered
    if ral = [] then pure (zeroScore nowIso, hist)
    else
      let frequency_score : Rat := min 30 ((ral.length : Rat) * (3/2))
      let severity_sum : Nat := (ral.map (fun a => sevWeight a.severity)).sum
      let severity_score : Rat := min 40 ((severity_sum : Rat) / 2)
      let unique_types : Nat := (ral.map (fun a => a.attack_type.getD "Unknown")).dedup.length
      let diversity_score : Rat := min 15 ((unique_types : Rat) * 2)
      let target_countries ← targetCountriesE ral
      let concentration_score : Rat :=
        if target_countries = [] then 0
        else min 15 (((maxCount target_countries : Rat) / (target_countries.length : Rat)) * 20)
      let total_score : Int :=
        min 100 (frequency_score + severity_score + diversity_score + concentration_score).floor
      let threat_level := classifyThreatLevel total_score
      let trend := calculateTrend hist total_score
      let result : ThreatScoreResult :=
        { score := total_score, level := threat_level, trend := trend
          factors := { frequency := pyRound1 frequency_score
                       severity := pyRound1 severity_score
                       diversity := pyRound1 diversity_score
                       concentration := pyRound1 concentration_score }
          timestamp := nowIso }
      pure (result, dequeAppend MAX_THREAT_HISTORY hist result)

/-- `calculate_threat_score`: the `try/except` wrapper — any exception in the
body yields the zero score and leaves the history untouched. -/
def calculate_threat_score (now : Int) (nowIso : String) (buf : List Attack)
    (hist : List ThreatScoreResult) : ThreatScoreResult × List ThreatScoreResult :=
  match calcThreatScoreCore now nowIso buf hist with
  | .ok r => r
  | .error _ => (zeroScore nowIso, hist)

/-- C2. On the empty attack buffer the threat-score computation returns the
zero score record: score 0, level `Low`, trend `stable`, all four factors 0
(and the history is left unchanged). -/
theorem empty_buffer_zero_score (now : Int) (nowIso : String)
    (hist : List ThreatScoreResult) :
    (calculate_threat_score now nowIso [] hist).1.score = 0 ∧
    (calculate_threat_score now nowIso [] hist).1.level = "Low" ∧
    (calculate_threat_score now nowIso [] hist).1.trend = "stable" ∧
    (calculate_threat_score now nowIso [] hist).1.factors =
      { frequency := 0, severity := 0, diversity := 0, concentration := 0 } ∧
    (calculate_threat_score now nowIso [] hist).2 = hist := by
  simp [calculate_threat_score, calcThreatScoreCore, zeroScore]

/-- C3. The threat-score computation never propagates an exception: whenever
the body of the `try:` block raises (models any malformed record making an
internal step fail), the caller receives the zero score record and the
history is unchanged. -/
theorem exception_yields_zero_score (now : Int) (nowIso : String)
    (buf : List Attack) (hist : List ThreatScoreResult) (e : String)
    (h : calcThreatScoreCore now nowIso buf hist = .error e) :
    calculate_threat_score now nowIso buf hist = (zeroScore nowIso, hist) ∧
    (zeroScore nowIso).score = 0 ∧ (zeroScore nowIso).level = "Low" ∧
    (zeroScore nowIso).trend = "stable" ∧
    (zeroScore nowIso).factors =
      { frequency := 0, severity := 0, diversity := 0, concentration := 0 } := by
  refine ⟨?_, rfl, rfl, rfl, rfl⟩
  simp [calculate_threat_score, h]

/-- A concrete malformed attack record: its timestamp string does not parse. -/
def malformedAttack : Attack :=
  { id := 1, timestamp := none
    origin := some { name := "A", country := some "X", lat := 0, lon := 0 }
    destination := some { name := "B", country := some "Y", lat := 0, lon := 0 }
    attack_type := some "HTTP Flood", severity := some "High"
    packets := 1000, source_ip := "1.2.3.4", destination_ip := "5.6.7.8"
    ip_version := "IPv4", real_data := false }

/-- Witness for C3: a buffer holding one attack with a malformed timestamp
makes the computation body raise, and the caller receives the zero score. -/
theorem exception_yields_zero_score_witness :
    calculate_threat_score 1000 "t" [malformedAttack] [] = (zeroScore "t", []) :=
  (exception_yields_zero_score 1000 "t" [malformedAttack] []
    "ValueError: invalid isoformat string" rfl).1

/-- A score-history record with the given total score (the other fields are
irrelevant to trend computation). -/
def scoreRec (s : Int) : ThreatScoreResult :=
  { score := s, level := "Low", trend := "stable"
    factors := { frequency := 0, severity := 0, diversity := 0, concentration := 0 }
    timestamp := "h" }

/-- C7. Trend classification: with fewer than 5 history entries the trend is
`stable`; otherwise, with `mean` the arithmetic mean of the last 5 historical
scores, the trend is `escalating` when `total > mean + 10`, `de-escalating`
when `total < mean - 10`, and `stable` otherwise. -/
theorem trend_classification (hist : List ThreatScoreResult) (current : Int) :
    (hist.length < 5 → calculateTrend hist current = "stable") ∧
    (5 ≤ hist.length →
      calculateTrend hist current =
        (if (current : Rat) >
            (((hist.drop (hist.length - 5)).map (fun r => (r.score : Rat))).sum) / 5 + 10
         then "escalating"
         else if (current : Rat) <
            (((hist.drop (hist.length - 5)).map (fun r => (r.score : Rat))).sum) / 5 - 10
         then "de-escalating"
         else "stable")) := by
  constructor
  · intro h
    simp [calculateTrend, h]
  · intro h
    have h5 : (List.drop (hist.length - 5) hist).length = 5 := by
      rw [List.length_drop]
      omega
    simp only [calculateTrend, List.map_map, List.length_map, h5, Function.comp_def,
      ESCALATION_THRESHOLD, DE_ESCALATION_THRESHOLD]
    rw [if_neg (by omega : ¬ hist.length < 5)]
    norm_num

/-- A history of five score records each with total score 50. -/
def hist50 : List ThreatScoreResult :=
  [scoreRec 50, scoreRec 50, scoreRec 50, scoreRec 50, scoreRec 50]

/-- Witness for C7: a history of five records with score 50 and a current
score of 65 (mean 50, 65 > 60) classifies as `escalating`. -/
theorem trend_classification_witness :
    calculateTrend hist50 65 = "escalating" := by
  have h := (trend_classification hist50 65).2 (by norm_num [hist50])
  rw [h]
  norm_num [hist50, scoreRec]

/-- Counterexample for C8: with five prior scores averaging 50, a new total
of 70 satisfies `70 > 50 + 10`, so the code classifies it as `escalating`,
not `stable` as the claim states. -/
theorem trend_at_70_not_stable :
    calculateTrend hist50 70 = "escalating" ∧
    calculateTrend hist50 70 ≠ "stable" := by
  constructor
  · norm_num [calculateTrend, hist50, scoreRec, ESCALATION_THRESHOLD]
  · norm_num [calculateTrend, hist50, scoreRec, ESCALATION_THRESHOLD]
    decide

/-- C8 (amended). With five prior scores averaging 50: a new total of 65 is
`escalating`, a new total of 70 is also `escalating` (70 > 60), and a new
total of 60 is `stable` (not strictly above mean + 10). -/
theorem trend_example_scores :
    calculateTrend hist50 65 = "escalating" ∧
    calculateTrend hist50 70 = "escalating" ∧
    calculateTrend hist50 60 = "stable" := by
  refine ⟨?_, ?_, ?_⟩ <;>
    norm_num [calculateTrend, hist50, scoreRec, ESCALATION_THRESHOLD, DE_ESCALATION_THRESHOLD]

/-! ## Threat-intel pool (`fetch_real_threat_data`, app.py) -/

/-- The mutable module state of the threat-intel pool:
`threat_ips_cache` and `last_fetch_time`. -/
structure ThreatCacheState where
  threat_ips_cache : List String
  last_fetch_time : Int
  deriving Repr, DecidableEq

/-- The eight configured blocklist sources. -/
def SOURCES : List String :=
  ["https://lists.blocklist.de/lists/ssh.txt",
   "https://lists.blocklist.de/lists/apache.txt",
   "https://lists.blocklist.de/lists/mail.txt",
   "https://lists.blocklist.de/lists/ftp.txt",
   "https://lists.blocklist.de/lists/bruteforcelogin.txt",
   "https://lists.blocklist.de/lists/strongips.txt",
   "https://lists.blocklist.de/lists/ircbot.txt",
   "https://lists.blocklist.de/lists/bots.txt"]

/-- Parse one fetched blocklist body:
`[line.strip() for line in text.split('\n') if line.strip() and not line.startswith('#')]`. -/
def parseBlocklist (text : String) : List String :=
  ((text.splitOn "\n").filter
    (fun line => line.trim ≠ "" ∧ ¬ line.startsWith "#")).map (fun line => line.trim)

/-- The fetch loop of `fetch_real_threat_data`: extend `acc` with the parsed
IPs of each source that fetches successfully; a failing source
(`http url = none`, modelling an exception or a non-200 status) is skipped. -/
def collectThreatIps (http : String → Option String) (urls : List String)
    (acc : List String) : List String :=
  urls.foldl
    (fun acc url =>
      match http url with
      | some text => acc ++ parseBlocklist text
      | none => acc)
    acc

/-- `fetch_real_threat_data`: returns the pool handed to the caller, the new
module state, and the number of list sources contacted. Within
`CACHE_DURATION` of the last refresh a non-empty pool is returned as is;
otherwise all sources are fetched and the pool is replaced by
`list(set(all_ips))` (modelled as `dedup`; Python's set order is
unspecified) and `last_fetch_time` is set to now. -/
def fetch_real_threat_data (now : Int) (http : String → Option String)
    (st : ThreatCacheState) : List String × ThreatCacheState × Nat :=
  if st.threat_ips_cache ≠ [] ∧ now - st.last_fetch_time < CACHE_DURATION then
    (st.threat_ips_cache, st, 0)
  else
    let all_ips := collectThreatIps http SOURCES []
    let pool := all_ips.dedup
    (pool, { threat_ips_cache := pool, last_fetch_time := now }, SOURCES.length)

theorem collectThreatIps_all_fail (http : String → Option String) (urls : List String)
    (acc : List String) (h : ∀ u ∈ urls, http u = none) :
    collectThreatIps http urls acc = acc := by
  induction urls generalizing acc with
  | nil => rfl
  | cons u us ih =>
    have hu : http u = none := h u (by simp)
    simp only [collectThreatIps, List.foldl_cons, hu]
    exact ih acc (fun v hv => h v (by simp [hv]))

/-- Counterexample for C4: with a non-empty pool `["1.2.3.4"]`, a refresh
past the cache duration in which every source fails replaces the pool by
the empty list instead of leaving the previous pool in place. -/
theorem stale_refresh_all_fail_empties_pool :
    (fetch_real_threat_data 100 (fun _ => none)
        { threat_ips_cache := ["1.2.3.4"], last_fetch_time := 0 }).2.1.threat_ips_cache = [] ∧
    (["1.2.3.4"] : List String) ≠ [] := by
  constructor
  · rfl
  · simp

/-- C4 (amended). When a refresh is attempted past the cache duration and
every configured list source fails to fetch, the previous pool is discarded:
the pool is replaced by the empty list and `last_fetch_time` is set to the
current time (all 8 sources having been contacted). -/
theorem stale_refresh_all_fail_replaces_pool (now : Int) (http : String → Option String)
    (st : ThreatCacheState) (helapsed : CACHE_DURATION ≤ now - st.last_fetch_time)
    (hfail : ∀ u ∈ SOURCES, http u = none) :
    fetch_real_threat_data now http st =
      ([], { threat_ips_cache := [], last_fetch_time := now }, 8) := by
  have hcond : ¬ (st.threat_ips_cache ≠ [] ∧ now - st.last_fetch_time < CACHE_DURATION) := by
    rintro ⟨-, hlt⟩
    omega
  simp only [fetch_real_threat_data, if_neg hcond, collectThreatIps_all_fail http SOURCES [] hfail]
  rfl

/-- Witness for C4 (amended): concrete stale state with every source failing. -/
theorem stale_refresh_all_fail_replaces_pool_witness :
    fetch_real_threat_data 100 (fun _ => none)
        { threat_ips_cache := ["1.2.3.4"], last_fetch_time := 0 } =
      ([], { threat_ips_cache := [], last_fetch_time := 100 }, 8) :=
  stale_refresh_all_fail_replaces_pool 100 (fun _ => none)
    { threat_ips_cache := ["1.2.3.4"], last_fetch_time := 0 }
    (by decide) (fun u _ => rfl)

/-- C5. If the pool is non-empty and less than `CACHE_DURATION` has elapsed
since the last refresh, the refresh returns the existing pool identically,
contacts no list source, and leaves the whole state unchanged. -/
theorem fresh_pool_returned_unchanged (now : Int) (http : String → Option String)
    (st : ThreatCacheState) (hne : st.threat_ips_cache ≠ [])
    (hfresh : now - st.last_fetch_time < CACHE_DURATION) :
    fetch_real_threat_data now http st = (st.threat_ips_cache, st, 0) := by
  simp only [fetch_real_threat_data, if_pos (And.intro hne hfresh)]

/-- Witness for C5: a non-empty pool 30 seconds after its refresh is
returned as is with zero fetches. -/
theorem fresh_pool_returned_unchanged_witness :
    fetch_real_threat_data 30 (fun _ => some "9.9.9.9")
        { threat_ips_cache := ["1.2.3.4"], last_fetch_time := 0 } =
      (["1.2.3.4"], { threat_ips_cache := ["1.2.3.4"], last_fetch_time := 0 }, 0) :=
  fresh_pool_returned_unchanged 30 (fun _ => some "9.9.9.9")
    { threat_ips_cache := ["1.2.3.4"], last_fetch_time := 0 }
    (by decide) (by decide)

/-! ## Attack id assignment (`create_us_attack` / `create_real_attack`)
and the overflow branch of `generate_new_attack` -/

theorem length_dequeAppend (n : Nat) (buf : List α) (x : α) :
    (dequeAppend n buf x).length = min (buf.length + 1) n := by
  simp only [dequeAppend, List.length_drop, List.length_append, List.length_cons,
    List.length_nil]
  omega

/-- Both attack creators assign `"id": len(recent_attacks) + 1`. -/
def createWithId (buf : List Attack) (payload : Attack) : Attack :=
  { payload with id := buf.length + 1 }

/-- One create-then-append step of the generation loop: create an attack
(its id computed from the current buffer length) and append it to the
ring buffer, recording the assigned id. -/
def runStep (st : List Attack × List Nat) (payload : Attack) : List Attack × List Nat :=
  let a := createWithId st.1 payload
  (dequeAppend MAX_ATTACKS st.1 a, st.2 ++ [a.id])

/-- A process lifetime in which each created attack is appended to the ring
buffer before the next one is created (as in every call site): returns the
final buffer and the ids assigned, in creation order. -/
def runCreateAppend (payloads : List Attack) : List Attack × List Nat :=
  payloads.foldl runStep ([], [])

theorem runCreateAppend_go (ps : List Attack) (buf : List Attack) (ids : List Nat)
    (hL : buf.length ≤ MAX_ATTACKS) :
    (ps.foldl runStep (buf, ids)).2 =
      ids ++ (List.range ps.length).map (fun i => min (buf.length + i) MAX_ATTACKS + 1) ∧
    (ps.foldl runStep (buf, ids)).1.length = min (buf.length + ps.length) MAX_ATTACKS := by
  induction ps generalizing buf ids with
  | nil =>
    refine ⟨by simp, ?_⟩
    simp only [List.foldl_nil, List.length_nil, Nat.add_zero]
    omega
  | cons p ps ih =>
    have hstep : runStep (buf, ids) p =
        (dequeAppend MAX_ATTACKS buf (createWithId buf p), ids ++ [buf.length + 1]) := rfl
    have hL2 : (dequeAppend MAX_ATTACKS buf (createWithId buf p)).length ≤ MAX_ATTACKS := by
      rw [length_dequeAppend]
      omega
    have hlen2 : (dequeAppend MAX_ATTACKS buf (createWithId buf p)).length =
        min (buf.length + 1) MAX_ATTACKS := length_dequeAppend _ _ _
    obtain ⟨ihids, ihlen⟩ :=
      ih (dequeAppend MAX_ATTACKS buf (createWithId buf p)) (ids ++ [buf.length + 1]) hL2
    rw [List.foldl_cons, hstep]
    constructor
    · rw [ihids, List.length_cons, List.range_succ_eq_map, List.map_cons, List.map_map,
        List.append_assoc]
      congr 1
      have h0 : min (buf.length + 0) MAX_ATTACKS + 1 = buf.length + 1 := by omega
      rw [h0]
      simp only [List.singleton_append, List.cons.injEq, true_and]
      apply List.map_congr_left
      intro i _
      simp only [Function.comp_apply, hlen2]
      omega
    · rw [ihlen, hlen2, List.length_cons]
      omega

/-- The ids assigned over a whole run: the `i`-th created attack (0-based)
receives id `min i MAX_ATTACKS + 1`. -/
theorem runCreateAppend_ids (payloads : List Attack) :
    (runCreateAppend payloads).2 =
      (List.range payloads.length).map (fun i => min i MAX_ATTACKS + 1) := by
  have h := (runCreateAppend_go payloads [] [] (by simp)).1
  simpa using h

/-- A fixed well-formed attack payload (the creators overwrite its id). -/
def templateAttack : Attack :=
  { id := 0, timestamp := some 0
    origin := some { name := "A", country := some "X", lat := 0, lon := 0 }
    destination := some { name := "B", country := some "Y", lat := 0, lon := 0 }
    attack_type := some "DDoS Attack", severity := some "Low"
    packets := 5000, source_ip := "192.168.1.1", destination_ip := "10.0.0.1"
    ip_version := "IPv4", real_data := false }

/-- Counterexample for C6: in a run of 102 created-and-appended attacks, the
101st and 102nd records both receive id 101 (`len(recent_attacks) + 1` with
a full buffer), so ids are not strictly increasing. -/
theorem attack_ids_not_strictly_increasing :
    ¬ List.Pairwise (fun a b => a < b)
        ((runCreateAppend (List.replicate 102 templateAttack)).2) := by
  rw [runCreateAppend_ids]
  intro hp
  have h := List.pairwise_iff_get.mp hp
    ⟨100, by simp⟩ ⟨101, by simp⟩ (by simp [Fin.lt_def])
  simp [List.get_eq_getElem, MAX_ATTACKS] at h

/-- C6 (amended). Each newly created attack record receives
`id = len(recent_attacks) + 1` at creation time; in a run where every
created record is appended, the `i`-th creation (0-based) gets id
`min i 100 + 1` — ids increase strictly only until the ring buffer reaches
capacity, after which every new record receives id 101. -/
theorem attack_id_assignment (payloads : List Attack) :
    (runCreateAppend payloads).2 =
      (List.range payloads.length).map (fun i => min i MAX_ATTACKS + 1) :=
  runCreateAppend_ids payloads

/-- The buffer-mutation path of the `generate_new_attack` handler: append
the attack, then — only if the length exceeds `MAX_ATTACKS` — run the
`recent_attacks.pop(0)` branch (which on a deque would raise `TypeError`
since `deque.pop` accepts no argument). The returned flag records whether
that branch executed. -/
def generate_new_attack_step (buf : List Attack) (attack : Attack) : List Attack × Bool :=
  let b := dequeAppend MAX_ATTACKS buf attack
  if b.length > MAX_ATTACKS then (b, true) else (b, false)

/-- C10. On every buffer reachable by a sequence of appends, the overflow
branch of `generate_new_attack` is unreachable: after the append the deque
length is at most `MAX_ATTACKS`, the guard is false, and the handler's
effect on the buffer is exactly the deque append. -/
theorem overflow_branch_unreachable (xs : List Attack) (a : Attack) :
    generate_new_attack_step (dequeOfAppends MAX_ATTACKS xs) a =
      (dequeAppend MAX_ATTACKS (dequeOfAppends MAX_ATTACKS xs) a, false) := by
  have hlen : ¬ (dequeAppend MAX_ATTACKS (dequeOfAppends MAX_ATTACKS xs) a).length
      > MAX_ATTACKS := by
    rw [length_dequeAppend]
    omega
  simp only [generate_new_attack_step, if_neg hlen]

/-! ## Per-country threat scores (`calculate_country_threat_scores`, app.py) -/

/-- One entry of the per-country score list. -/
structure CountryScore where
  country : String
  score : Nat
  attack_count : Nat
  critical_count : Nat
  deriving Repr, DecidableEq

/-- Severity weight in `calculate_country_threat_scores`:
`severity_weights.get(a.get('severity', 'Low'), 0)` with
`{'Critical': 4, 'High': 3, 'Medium': 2, 'Low': 1}` — a missing key defaults
to `'Low'` (weight 1) but an unknown string falls back to 0. -/
def countrySevWeight (s : Option String) : Nat :=
  match s with
  | none => 1
  | some "Critical" => 4
  | some "High" => 3
  | some "Medium" => 2
  | some "Low" => 1
  | some _ => 0

/-- The destination country of an attack, when both the `destination` dict
and its `country` key are present (the grouping loop guards both). -/
def destCountry (a : Attack) : Option String :=
  a.destination.bind (fun d => d.country)

/-- The grouping keys of `defaultdict(list)` in first-occurrence order
(Python dicts iterate in insertion order). -/
def countryKeys (l : List Attack) : List String :=
  l.foldl
    (fun acc a =>
      match destCountry a with
      | some c => if c ∈ acc then acc else acc ++ [c]
      | none => acc)
    []

/-- The attacks grouped under country `c`, in buffer order. -/
def attacksFor (c : String) (l : List Attack) : List Attack :=
  l.filter (fun a => destCountry a = some c)

def countrySevSum (l : List Attack) : Nat :=
  (l.map (fun a => countrySevWeight a.severity)).sum

/-- The per-country entry: `score = min(100, attack_count*5 + severity_sum*3)`. -/
def countryEntry (l : List Attack) (c : String) : CountryScore :=
  let attacks := attacksFor c l
  { country := c
    score := min 100 (attacks.length * 5 + countrySevSum attacks * 3)
    attack_count := attacks.length
    critical_count := (attacks.filter (fun a => a.severity = some "Critical")).length }

/-- Stable insertion into a descending-by-score list: the new element goes
after all existing elements of equal score (the tie behaviour of Python's
stable `list.sort(key=..., reverse=True)`). -/
def insertDesc (x : CountryScore) : List CountryScore → List CountryScore
  | [] => [x]
  | y :: ys => if y.score < x.score then x :: y :: ys else y :: insertDesc x ys

/-- `country_scores.sort(key=lambda x: x['score'], reverse=True)`:
stable descending sort by score. -/
def sortByScoreDesc (l : List CountryScore) : List CountryScore :=
  l.foldl (fun acc x => insertDesc x acc) []

/-- Group, score, sort descending and truncate to the top 10. -/
def countryScoresOf (l : List Attack) : List CountryScore :=
  (sortByScoreDesc ((countryKeys l).map (countryEntry l))).take 10

/-- The analysis window of `calculate_country_threat_scores`: attacks of the
last 600 seconds, falling back to the last 30 buffer entries when that
window is empty. An unparseable timestamp raises. -/
def windowList (now : Int) (buf : List Attack) : Except String (List Attack) :=
  match filterByWindow (now - 600) buf with
  | .error e => .error e
  | .ok filtered => .ok (if filtered = [] then buf.rtake 30 else filtered)

/-- The body of the `try:` block of `calculate_country_threat_scores`. -/
def countryScoresCore (now : Int) (buf : List Attack) :
    Except String (List CountryScore) :=
  if buf = [] then .ok []
  else
    match windowList now buf with
    | .error e => .error e
    | .ok ral => if ral = [] then .ok [] else .ok (countryScoresOf ral)

/-- `calculate_country_threat_scores`: any exception in the body yields `[]`. -/
def calculate_country_threat_scores (now : Int) (buf : List Attack) :
    List CountryScore :=
  match countryScoresCore now buf with
  | .ok l => l
  | .error _ => []

theorem mem_insertDesc (x z : CountryScore) (l : List CountryScore) :
    z ∈ insertDesc x l ↔ z = x ∨ z ∈ l := by
  induction l with
  | nil => simp [insertDesc]
  | cons y ys ih =>
    rw [insertDesc]
    by_cases h : y.score < x.score
    · rw [if_pos h]
      simp only [List.mem_cons]
      try tauto
    · rw [if_neg h]
      simp only [List.mem_cons, ih]
      try tauto

theorem pairwise_insertDesc (x : CountryScore) (l : List CountryScore)
    (hp : List.Pairwise (fun a b => b.score ≤ a.score) l) :
    List.Pairwise (fun a b => b.score ≤ a.score) (insertDesc x l) := by
  induction l with
  | nil => simp [insertDesc]
  | cons y ys ih =>
    rw [List.pairwise_cons] at hp
    obtain ⟨hy, hys⟩ := hp
    by_cases h : y.score < x.score
    · rw [insertDesc, if_pos h, List.pairwise_cons]
      refine ⟨?_, by rw [List.pairwise_cons]; exact ⟨hy, hys⟩⟩
      intro b hb
      rcases List.mem_cons.mp hb with rfl | hb
      · omega
      · have := hy b hb
        omega
    · rw [insertDesc, if_neg h, List.pairwise_cons]
      refine ⟨?_, ih hys⟩
      intro b hb
      rcases (mem_insertDesc x b ys).mp hb with rfl | hb
      · omega
      · exact hy b hb

theorem pairwise_sortByScoreDesc (l : List CountryScore) :
    List.Pairwise (fun a b => b.score ≤ a.score) (sortByScoreDesc l) := by
  have hgen : ∀ (l acc : List CountryScore),
      List.Pairwise (fun a b => b.score ≤ a.score) acc →
      List.Pairwise (fun a b => b.score ≤ a.score)
        (l.foldl (fun acc x => insertDesc x acc) acc) := by
    intro l
    induction l with
    | nil => intro acc h; exact h
    | cons x xs ih =>
      intro acc h
      exact ih (insertDesc x acc) (pairwise_insertDesc x acc h)
  exact hgen l [] (by simp)

theorem mem_sortByScoreDesc (z : CountryScore) (l : List CountryScore) :
    z ∈ sortByScoreDesc l ↔ z ∈ l := by
  have hgen : ∀ (l acc : List CountryScore),
      (z ∈ l.foldl (fun acc x => insertDesc x acc) acc ↔ z ∈ acc ∨ z ∈ l) := by
    intro l
    induction l with
    | nil => simp
    | cons x xs ih =>
      intro acc
      rw [List.foldl_cons, ih (insertDesc x acc)]
      simp [mem_insertDesc]
      tauto
  rw [sortByScoreDesc, hgen l []]
  simp

theorem countryScoresOf_spec (l : List Attack) :
    (countryScoresOf l).length ≤ 10 ∧
    List.Pairwise (fun a b => b.score ≤ a.score) (countryScoresOf l) ∧
    ∀ e ∈ countryScoresOf l,
      e.score = min 100 ((attacksFor e.country l).length * 5
        + countrySevSum (attacksFor e.country l) * 3) := by
  refine ⟨?_, ?_, ?_⟩
  · rw [countryScoresOf, List.length_take]
    omega
  · exact List.Pairwise.sublist (List.take_sublist _ _) (pairwise_sortByScoreDesc _)
  · intro e he
    have hmem : e ∈ sortByScoreDesc ((countryKeys l).map (countryEntry l)) :=
      List.mem_of_mem_take he
    have hmem2 : e ∈ (countryKeys l).map (countryEntry l) :=
      (mem_sortByScoreDesc _ _).mp hmem
    obtain ⟨c, -, rfl⟩ := List.mem_map.mp hmem2
    rfl

/-- C9. For every input buffer, the per-country score list has at most 10
entries, is sorted in descending order of score, and — whenever the window
computation succeeds with window `w` — each listed country's score equals
`min(100, attack_count*5 + severity_sum*3)` over that country's attacks in
`w`, with severity weights Critical=4, High=3, Medium=2, Low=1 (weight 1
for a record with no severity key, 0 for an unrecognized severity). -/
theorem country_scores_spec (now : Int) (buf : List Attack) :
    (calculate_country_threat_scores now buf).length ≤ 10 ∧
    List.Pairwise (fun a b => b.score ≤ a.score)
      (calculate_country_threat_scores now buf) ∧
    ∀ w, windowList now buf = .ok w →
      ∀ e ∈ calculate_country_threat_scores now buf,
        e.score = min 100 ((attacksFor e.country w).length * 5
          + countrySevSum (attacksFor e.country w) * 3) := by
  rcases hcore : countryScoresCore now buf with err | out
  · simp [calculate_country_threat_scores, hcore]
  · have hout : calculate_country_threat_scores now buf = out := by
      simp [calculate_country_threat_scores, hcore]
    rw [hout]
    rw [countryScoresCore] at hcore
    by_cases hb : buf = []
    · rw [if_pos hb] at hcore
      cases hcore
      simp
    · rw [if_neg hb] at hcore
      rcases hw : windowList now buf with werr | w
      · rw [hw] at hcore
        simp at hcore
      · rw [hw] at hcore
        change (if w = [] then Except.ok [] else Except.ok (countryScoresOf w))
          = Except.ok out at hcore
        by_cases hral : w = []
        · rw [if_pos hral] at hcore
          cases hcore
          simp
        · rw [if_neg hral] at hcore
          cases hcore
          obtain ⟨h1, h2, h3⟩ := countryScoresOf_spec w
          refine ⟨h1, h2, ?_⟩
          intro w' hw' e he
          cases hw'
          exact h3 e he

/-- First demo attack: country X, Critical, inside the window of `now = 1000`. -/
def demoA1 : Attack :=
  { templateAttack with
    timestamp := some 950
    destination := some { name := "a", country := some "X", lat := 0, lon := 0 }
    severity := some "Critical" }

/-- Second demo attack: country Y, High. -/
def demoA2 : Attack :=
  { templateAttack with
    timestamp := some 960
    destination := some { name := "b", country := some "Y", lat := 0, lon := 0 }
    severity := some "High" }

/-- Third demo attack: country X, Low. -/
def demoA3 : Attack :=
  { templateAttack with
    timestamp := some 970
    destination := some { name := "c", country := some "X", lat := 0, lon := 0 }
    severity := some "Low" }

/-- A small concrete buffer: two attacks on country X (Critical, Low) and
one on country Y (High), all within the 600-second window of `now = 1000`. -/
def demoBuf : List Attack := [demoA1, demoA2, demoA3]

/-- Witness for C9: on `demoBuf` the window is the whole buffer and the
entry for country X drawn from the output satisfies the score formula
(2 attacks, severity sum 5: `min(100, 2*5 + 5*3) = 25`). -/
theorem country_scores_spec_witness :
    (countryEntry demoBuf "X").score =
      min 100 ((attacksFor (countryEntry demoBuf "X").country demoBuf).length * 5
        + countrySevSum (attacksFor (countryEntry demoBuf "X").country demoBuf) * 3) :=
  (country_scores_spec 1000 demoBuf).2.2 demoBuf rfl
    (countryEntry demoBuf "X") (by decide)

end DDoSTracker
